import Mathlib

/-
Verification of the tor-relay-checker discovery-and-probing engine
(`src/main.rs`), shallowly embedded in Lean 4.

Rust `String`s are modelled as `List Char`; `u16` ports as `Nat` with the
bound 65535 enforced where the Rust code enforces it; network effects
(HTTP transport, DNS resolution, TCP connect) are modelled as explicit
oracles passed to the embedded functions.
-/

/-- Rust strings, modelled as their character lists. -/
abbrev Str := List Char

/-- The character for the decimal digit `d` (`0 ≤ d ≤ 9`). -/
def digitChar (d : Nat) : Char := Char.ofNat (48 + d)

/-- Value of an ASCII decimal digit, `none` for any other character.
Models the per-character acceptance of Rust's `u16::from_str`. -/
def digitVal (c : Char) : Option Nat :=
  if 48 ≤ c.toNat ∧ c.toNat ≤ 57 then some (c.toNat - 48) else none

/-- Little-endian decimal digits of `n`, with explicit fuel so that the
definition is structural (fuel `≥ n` suffices). -/
def natToRevDigitsAux : Nat → Nat → List Char
  | 0, _ => []
  | fuel + 1, n => if n = 0 then [] else digitChar (n % 10) :: natToRevDigitsAux fuel (n / 10)

/-- Decimal rendering of `n`, as Rust's `{}` formatting of an integer. -/
def natToStr (n : Nat) : Str :=
  if n = 0 then ['0'] else (natToRevDigitsAux n n).reverse

/-- Fold decimal digits onto an accumulator; `none` on a non-digit. -/
def accDigits : Nat → List Char → Option Nat
  | acc, [] => some acc
  | acc, c :: cs =>
    match digitVal c with
    | some d => accDigits (acc * 10 + d) cs
    | none => none

/-- Parse a non-empty all-digit string into a `Nat`. -/
def parseDigitsAll (l : List Char) : Option Nat :=
  if l.isEmpty then none else accDigits 0 l

/-- Drop one leading `+` sign, as Rust's unsigned `from_str` accepts. -/
def stripPlus (s : Str) : Str :=
  match s with
  | [] => []
  | c :: rest => if c = '+' then rest else c :: rest

/-- Rust `str::parse::<u16>`: optional leading `+`, then one or more ASCII
decimal digits, value at most 65535. -/
def parseU16 (s : Str) : Option Nat :=
  match parseDigitsAll (stripPlus s) with
  | some v => if v ≤ 65535 then some v else none
  | none => none

/-- Rust `str::rsplit_once(c)`: split at the last occurrence of `c`,
`none` when `c` does not occur. -/
def rsplitOnceAux (c : Char) : List Char → Option (List Char × List Char)
  | [] => none
  | x :: xs =>
    match rsplitOnceAux c xs with
    | some pr => some (x :: pr.1, pr.2)
    | none => if x = c then some ([], xs) else none

/-- The bracket stripping of `parse_or_addresses`: Rust
`host_part.strip_prefix('[').and_then(|h| h.strip_suffix(']'))`. -/
def stripSq (s : Str) : Option Str :=
  match s with
  | '[' :: rest => if rest.getLast? = some ']' then some rest.dropLast else none
  | _ => none

/-- `format_address` from `src/main.rs`: wrap the host in brackets when it
contains a colon, then append `:port`. -/
def format_address (host : Str) (port : Nat) : Str :=
  if ':' ∈ host then '[' :: (host ++ ']' :: ':' :: natToStr port) else host ++ ':' :: natToStr port

/-- The per-string body of `parse_or_addresses` from `src/main.rs`:
split on the last `:`, parse the port as `u16`, strip one layer of
square brackets from the host part if present. -/
def parseOneAddr (a : Str) : Option (Str × Nat) :=
  match rsplitOnceAux ':' a with
  | none => none
  | some pr =>
    match parseU16 pr.2 with
    | none => none
    | some port =>
      match stripSq pr.1 with
      | some h => some (h, port)
      | none => some (pr.1, port)

/-- `parse_or_addresses` from `src/main.rs`: keep the successfully parsed
`(host, port)` pairs, in order. -/
def parse_or_addresses (addrs : List Str) : List (Str × Nat) :=
  addrs.filterMap parseOneAddr

/-- The `Relay` record of `src/main.rs`: fingerprint plus advertised
`or_addresses` strings. -/
structure Relay where
  fingerprint : Str
  or_addresses : List Str
deriving DecidableEq

/-- Outcome of one HTTP GET against one source URL, as observed by
`grab_relays`: either a transport error (`client.get(url).send()` fails),
or a response with a success flag (`status().is_success()`) and the result
of decoding the body as an `OnionooResponse` (`some relays` on success,
`none` on a JSON decode failure). -/
inductive SourceResult
  | err
  | resp (success : Bool) (decoded : Option (List Relay))
deriving DecidableEq

/-- A source fully succeeds exactly when the transport result is a 2xx
response and the body decodes. -/
def SourceResult.isOkB : SourceResult → Bool
  | .resp true (some _) => true
  | _ => false

/-- The fixed primary onionoo URL of `grab_relays`. -/
def baseUrl : String :=
  "https://onionoo.torproject.org/details?type=relay&running=true&fields=fingerprint,or_addresses,country"

/-- The first hardcoded mirror URL of `grab_relays`. -/
def mirror1 : String :=
  "https://raw.githubusercontent.com/nukeddd/tor-onionoo-mirror/refs/heads/master/details-running-relays-fingerprint-address-only.json"

/-- The second hardcoded mirror URL of `grab_relays`. -/
def mirror2 : String :=
  "https://bitbucket.org/ValdikSS/tor-onionoo-mirror/raw/master/details-running-relays-fingerprint-address-only.json"

/-- The ordered URL list built by `grab_relays`: primary first, then the
caller-supplied URLs, then the two hardcoded mirrors. -/
def buildUrls (preferred : List String) : List String :=
  baseUrl :: preferred ++ [mirror1, mirror2]

/-- The source loop of `grab_relays`: try each URL in order, return the
first fully successful decode, record every attempted URL; error when the
list is exhausted. -/
def tryUrls (oracle : String → SourceResult) : List String → List String × Except Unit (List Relay)
  | [] => ([], .error ())
  | u :: rest =>
    match oracle u with
    | .resp true (some rs) => ([u], .ok rs)
    | _ =>
      let pr := tryUrls oracle rest
      (u :: pr.1, pr.2)

/-- `grab_relays` from `src/main.rs`, over a transport oracle: the list of
attempted URLs together with the result (`.error ()` models the fatal
`anyhow` error raised when every source failed). -/
def grab_relays (preferred : List String) (oracle : String → SourceResult) :
    List String × Except Unit (List Relay) :=
  tryUrls oracle (buildUrls preferred)

/-- The `io::Error` values `check_connection` can produce or propagate. -/
inductive IoErr
  | timedOut
  | noAddressesFound
  | other (code : Nat)
deriving DecidableEq

/-- Outcome of one timed TCP connect attempt in `check_connection`:
`Ok(Ok(_))`, `Ok(Err(e))`, or the timeout branch `Err(_)`. -/
inductive ConnOutcome
  | success
  | failed (e : IoErr)
  | elapsed
deriving DecidableEq

/-- The connect loop of `check_connection`: try each resolved address in
order, return on the first success, remember the last failure (a timeout
becomes `IoErr.timedOut`); report the last failure at the end, or
`No addresses found` when there was none. -/
def connLoop {α : Type} (connect : α → ConnOutcome) : List α → Option IoErr → Except IoErr Unit
  | [], lastE => .error (lastE.getD .noAddressesFound)
  | a :: rest, _lastE =>
    match connect a with
    | .success => .ok ()
    | .failed e => connLoop connect rest (some e)
    | .elapsed => connLoop connect rest (some .timedOut)

/-- The error reported for one failing attempt: the connect error itself,
or `IoErr.timedOut` for the timeout branch. -/
def attemptErr {α : Type} (connect : α → ConnOutcome) (a : α) : IoErr :=
  match connect a with
  | .failed e => e
  | _ => .timedOut

/-- `check_connection` from `src/main.rs`, over a resolution oracle
(`tokio::net::lookup_host`, whose error propagates via `?`) and a connect
oracle: resolve the formatted address, then run the connect loop. -/
def check_connection {α : Type} (resolve : Str → Except IoErr (List α))
    (connect : α → ConnOutcome) (host : Str) (port : Nat) : Except IoErr Unit :=
  match resolve (format_address host port) with
  | .error e => .error e
  | .ok addrs => connLoop connect addrs none

/-- Whether an `io::Result` is `Ok`, as Rust's `is_ok()`. -/
def isOkE : Except IoErr Unit → Bool
  | .ok _ => true
  | .error _ => false

/-- The sequential loop of `check_relay`: push each parsed address whose
connection check succeeds, in order, with no early exit. -/
def probeLoop (connOk : Str → Nat → Bool) : List (Str × Nat) → List (Str × Nat)
  | [] => []
  | hp :: rest => if connOk hp.1 hp.2 then hp :: probeLoop connOk rest else probeLoop connOk rest

/-- `check_relay` from `src/main.rs`: parse the relay's addresses and
collect those whose `check_connection` result is `Ok`. -/
def check_relay {α : Type} (resolve : Str → Except IoErr (List α))
    (connect : α → ConnOutcome) (relay : Relay) : Relay × List (Str × Nat) :=
  (relay, probeLoop (fun h p => isOkE (check_connection resolve connect h p))
    (parse_or_addresses relay.or_addresses))

/-- The per-relay narrowing closure of `filter_by_port`: one copy of the
relay per parsed address whose port is in `ports`, carrying exactly the
canonical re-encoding of that one address. -/
def narrowRelay (ports : List Nat) (relay : Relay) : List Relay :=
  (parse_or_addresses relay.or_addresses).filterMap (fun hp =>
    if hp.2 ∈ ports then some (Relay.mk relay.fingerprint [format_address hp.1 hp.2]) else none)

/-- `filter_by_port` from `src/main.rs`: identity when `ports` is empty,
otherwise flat-map every relay through the narrowing closure. -/
def filter_by_port (relays : List Relay) (ports : List Nat) : List Relay :=
  if ports.isEmpty then relays else relays.flatMap (narrowRelay ports)

/-- One batch of the probe loop in `main`: run `check_relay` over every
relay of the chunk and keep the outcomes with a non-empty reachable list
(the `!reachable_addrs.is_empty()` push into `working_relays`). -/
def processBatch {α : Type} (resolve : Str → Except IoErr (List α))
    (connect : α → ConnOutcome) (chunk : List Relay) : List (Relay × List (Str × Nat)) :=
  chunk.filterMap (fun r =>
    let pr := check_relay resolve connect r
    if pr.2.isEmpty then none else some pr)

/-- The batch loop of `main`: before each chunk compare the accumulated
count against the goal and break when reached; otherwise run the whole
chunk and append its outcomes. Exhausting the chunks returns normally. -/
def scanLoop {α : Type} (resolve : Str → Except IoErr (List α)) (connect : α → ConnOutcome)
    (goal : Nat) : List (List Relay) → List (Relay × List (Str × Nat)) → List (Relay × List (Str × Nat))
  | [], acc => acc
  | chunk :: rest, acc =>
    if goal ≤ acc.length then acc
    else scanLoop resolve connect goal rest (acc ++ processBatch resolve connect chunk)

/-- The single-candidate fetch scenario of the spec: relay `AAA` with the
one address `10.0.0.1:443`. -/
def demoRelayAAA : Relay := Relay.mk ("AAA".data) ["10.0.0.1:443".data]

/-- The port-filter scenario of the spec: relay `BBB` with one IPv6 and
one IPv4 address, both on port 9001. -/
def demoRelayBBB : Relay :=
  Relay.mk ("BBB".data) ["[2001:db8::1]:9001".data, "10.0.0.2:9001".data]

/-- A transport oracle where only the first hardcoded mirror succeeds. -/
def demoOracle : String → SourceResult :=
  fun u => if u = mirror1 then .resp true (some [demoRelayAAA]) else .resp false none

/-- A transport oracle where every source fails at the transport level. -/
def demoFailOracle : String → SourceResult := fun _ => .err

/-- A resolution oracle that always fails. -/
def demoResolveErr : Str → Except IoErr (List Nat) := fun _ => .error (.other 3)

/-- A resolution oracle that resolves to no socket addresses. -/
def demoResolveNil : Str → Except IoErr (List Nat) := fun _ => .ok []

/-- A resolution oracle that resolves every name to two socket
addresses. -/
def demoResolveTwo : Str → Except IoErr (List Nat) := fun _ => .ok [0, 1]

/-- A connect oracle where only the second resolved address answers. -/
def demoConnect : Nat → ConnOutcome :=
  fun a => if a = 1 then .success else .failed (.other 7)

/-- A connect oracle where every attempt fails (one refusal, then
timeouts). -/
def demoConnectFail : Nat → ConnOutcome :=
  fun a => if a = 0 then .failed (.other 7) else .elapsed

lemma accDigits_append (l₁ l₂ : List Char) : ∀ acc : Nat,
    accDigits acc (l₁ ++ l₂) = (accDigits acc l₁).bind (fun a => accDigits a l₂) := by
  induction l₁ with
  | nil => intro acc; simp [accDigits]
  | cons c cs ih =>
    intro acc
    simp only [List.cons_append, accDigits]
    cases h : digitVal c with
    | none => simp
    | some d => simp [ih]

lemma mem_natToRevDigitsAux (fuel : Nat) : ∀ (n : Nat) (c : Char),
    c ∈ natToRevDigitsAux fuel n → ∃ d, d < 10 ∧ c = digitChar d := by
  induction fuel with
  | zero => intro n c h; simp [natToRevDigitsAux] at h
  | succ fuel ih =>
    intro n c h
    by_cases hn : n = 0
    · simp [natToRevDigitsAux, hn] at h
    · rw [natToRevDigitsAux, if_neg hn] at h
      rcases List.mem_cons.mp h with h0 | h1
      · exact ⟨n % 10, Nat.mod_lt n (by norm_num), h0⟩
      · exact ih (n / 10) c h1

lemma digitVal_digitChar (d : Nat) (hd : d < 10) : digitVal (digitChar d) = some d := by
  interval_cases d <;> decide

lemma accDigits_rev (fuel : Nat) : ∀ (n acc : Nat), n ≤ fuel →
    accDigits acc ((natToRevDigitsAux fuel n).reverse)
      = some (acc * 10 ^ (natToRevDigitsAux fuel n).length + n) := by
  induction fuel with
  | zero =>
    intro n acc hn
    have : n = 0 := Nat.le_zero.mp hn
    subst this
    simp [natToRevDigitsAux, accDigits]
  | succ fuel ih =>
    intro n acc hn
    by_cases hz : n = 0
    · subst hz; simp [natToRevDigitsAux, accDigits]
    · rw [natToRevDigitsAux, if_neg hz]
      rw [List.reverse_cons, accDigits_append]
      have hdiv : n / 10 ≤ fuel := by omega
      rw [ih (n / 10) acc hdiv]
      simp only [Option.some_bind, accDigits, digitVal_digitChar (n % 10) (Nat.mod_lt n (by norm_num))]
      simp only [List.length_cons, pow_succ, ← Nat.mul_assoc]
      congr 1
      generalize acc * 10 ^ (natToRevDigitsAux fuel (n / 10)).length = A
      omega

lemma parseDigitsAll_natToStr (n : Nat) : parseDigitsAll (natToStr n) = some n := by
  cases n with
  | zero => decide
  | succ m =>
    have hcons : natToRevDigitsAux (m + 1) (m + 1)
        = digitChar ((m + 1) % 10) :: natToRevDigitsAux m ((m + 1) / 10) := by
      rw [natToRevDigitsAux, if_neg (Nat.succ_ne_zero m)]
    have hrev := accDigits_rev (m + 1) (m + 1) 0 (le_refl _)
    rw [natToStr, if_neg (Nat.succ_ne_zero m), parseDigitsAll]
    rw [if_neg (by rw [hcons]; simp)]
    rw [hrev]
    simp

lemma mem_natToStr (n : Nat) (c : Char) (h : c ∈ natToStr n) :
    ∃ d, d < 10 ∧ c = digitChar d := by
  rw [natToStr] at h
  by_cases hz : n = 0
  · rw [if_pos hz] at h
    simp at h
    exact ⟨0, by norm_num, by rw [h]; decide⟩
  · rw [if_neg hz, List.mem_reverse] at h
    exact mem_natToRevDigitsAux n n c h

lemma stripPlus_natToStr (n : Nat) : stripPlus (natToStr n) = natToStr n := by
  cases hs : natToStr n with
  | nil => rfl
  | cons c t =>
    have hc : c ∈ natToStr n := by rw [hs]; exact List.mem_cons_self c t
    obtain ⟨d, hd, rfl⟩ := mem_natToStr n c hc
    have hne : digitChar d ≠ '+' := by interval_cases d <;> decide
    rw [stripPlus, if_neg hne]

lemma parseU16_natToStr (p : Nat) (hp : p ≤ 65535) : parseU16 (natToStr p) = some p := by
  rw [parseU16, stripPlus_natToStr, parseDigitsAll_natToStr]
  simp [hp]

lemma colon_not_mem_natToStr (n : Nat) : ':' ∉ natToStr n := by
  intro h
  obtain ⟨d, hd, he⟩ := mem_natToStr n ':' h
  have : digitChar d ≠ ':' := by interval_cases d <;> decide
  exact this he.symm

lemma rsplitOnceAux_of_not_mem (c : Char) (l : List Char) (h : c ∉ l) :
    rsplitOnceAux c l = none := by
  induction l with
  | nil => rfl
  | cons x xs ih =>
    have hx : ¬x = c := by
      intro he
      subst he
      exact h (List.mem_cons_self x xs)
    rw [rsplitOnceAux, ih (fun hm => h (List.mem_cons_of_mem x hm)), if_neg hx]

lemma rsplitOnceAux_last (c : Char) (r : List Char) (hr : c ∉ r) : ∀ l : List Char,
    rsplitOnceAux c (l ++ c :: r) = some (l, r) := by
  intro l
  induction l with
  | nil =>
    rw [List.nil_append, rsplitOnceAux, rsplitOnceAux_of_not_mem c r hr, if_pos rfl]
  | cons x xs ih =>
    rw [List.cons_append, rsplitOnceAux, ih]

lemma stripSq_wrap (h : Str) : stripSq ('[' :: (h ++ [']'])) = some h := by
  rw [stripSq]
  simp

/-- Claim C1 (amended): decoding the string produced by
`format_address host port` yields back exactly `(host, port)` for every
16-bit port and every host that contains a colon or is not itself
bracket-wrapped (`stripSq host = none`); this covers every IPv4 literal
and every IPv6 literal. Bracket-wrapped colon-free hosts are the sole
exception: re-decoding strips their brackets. -/
theorem C1_roundtrip_amended (h : Str) (p : Nat) (hp : p ≤ 65535)
    (hh : ':' ∈ h ∨ stripSq h = none) :
    parseOneAddr (format_address h p) = some (h, p) := by
  by_cases hc : ':' ∈ h
  · rw [format_address, if_pos hc]
    have heq : '[' :: (h ++ ']' :: ':' :: natToStr p)
        = ('[' :: (h ++ [']'])) ++ ':' :: natToStr p := by simp
    rw [parseOneAddr, heq, rsplitOnceAux_last ':' (natToStr p) (colon_not_mem_natToStr p)]
    simp only [parseU16_natToStr p hp, stripSq_wrap]
  · have hsq : stripSq h = none := by
      rcases hh with h1 | h2
      · exact absurd h1 hc
      · exact h2
    rw [format_address, if_neg hc, parseOneAddr,
      rsplitOnceAux_last ':' (natToStr p) (colon_not_mem_natToStr p)]
    simp only [parseU16_natToStr p hp, hsq]

/-- Claim C1 counterexample: the colon-free host `[]` (a parsed address
the decoder itself can produce, from the raw string `[[]]:443`) does not
round-trip: re-encoding and re-decoding strips the brackets and returns
the empty host instead. -/
theorem C1_counterexample :
    parseOneAddr ("[[]]:443".data) = some ("[]".data, 443)
    ∧ parseOneAddr (format_address ("[]".data) 443) = some ("".data, 443)
    ∧ ¬parseOneAddr (format_address ("[]".data) 443) = some ("[]".data, 443) := by
  decide

/-- Claim C1 witness: the amended round-trip at an IPv4 literal and at an
IPv6 literal. -/
theorem C1_roundtrip_witness :
    parseOneAddr (format_address ("10.0.0.1".data) 443) = some ("10.0.0.1".data, 443)
    ∧ parseOneAddr (format_address ("2001:db8::1".data) 9001) = some ("2001:db8::1".data, 9001) :=
  ⟨C1_roundtrip_amended _ 443 (by norm_num) (Or.inr (by decide)),
   C1_roundtrip_amended _ 9001 (by norm_num) (Or.inl (by decide))⟩

/-- Claim C2 counterexample: the bracket-less IPv6 literal `2001:db8::1`
carries no port, yet decoding does not reject it: it is parsed into the
pair `("2001:db8:", 1)` and does contribute an entry to the parsed
address set. -/
theorem C2_counterexample :
    parseOneAddr ("2001:db8::1".data) = some ("2001:db8:".data, 1)
    ∧ ¬parse_or_addresses ["2001:db8::1".data] = [] := by
  decide

/-- Claim C2 (amended): for any raw address string containing a colon,
decoding rejects it as malformed exactly when the segment after the last
colon fails to parse as a 16-bit unsigned integer. So a bracket-less
IPv6 literal with no port is rejected only when its final group is not a
valid decimal u16 (e.g. `2001:db8::` or `fe80::abcd`); when the final
group is a valid u16 the string is instead parsed as a (host, port) pair
with that group taken as the port. -/
theorem C2_reject_iff_bad_port (a hostPart portStr : Str)
    (hsplit : rsplitOnceAux ':' a = some (hostPart, portStr)) :
    parseOneAddr a = none ↔ parseU16 portStr = none := by
  rw [parseOneAddr, hsplit]
  cases hU : parseU16 portStr with
  | none => simp [hU]
  | some v =>
    cases hS : stripSq hostPart with
    | none => simp [hU, hS]
    | some h => simp [hU, hS]

/-- Claim C2 witness: the amended criterion applied to the rejected
string `2001:db8::` and to the accepted string `2001:db8::1`. -/
theorem C2_reject_witness :
    parseOneAddr ("2001:db8::".data) = none
    ∧ ¬parseOneAddr ("2001:db8::1".data) = none := by
  constructor
  · exact (C2_reject_iff_bad_port _ ("2001:db8:".data) ("".data) (by decide)).mpr (by decide)
  · rw [C2_reject_iff_bad_port _ ("2001:db8:".data) ("1".data) (by decide)]
    decide


lemma isOkB_iff (r : SourceResult) : r.isOkB = true ↔ ∃ rs, r = .resp true (some rs) := by
  cases r with
  | err => simp [SourceResult.isOkB]
  | resp s d => cases s <;> cases d <;> simp [SourceResult.isOkB]

lemma tryUrls_cons_ok (oracle : String → SourceResult) (u : String) (rest : List String)
    (rs : List Relay) (h : oracle u = .resp true (some rs)) :
    tryUrls oracle (u :: rest) = ([u], .ok rs) := by
  rw [tryUrls, h]

lemma tryUrls_cons_not_ok (oracle : String → SourceResult) (u : String) (rest : List String)
    (h : (oracle u).isOkB = false) :
    tryUrls oracle (u :: rest) = (u :: (tryUrls oracle rest).1, (tryUrls oracle rest).2) := by
  rw [tryUrls]
  cases ho : oracle u with
  | err => rfl
  | resp s d =>
    cases s with
    | false => cases d <;> rfl
    | true =>
      cases d with
      | none => rfl
      | some rs =>
        rw [ho] at h
        simp [SourceResult.isOkB] at h

lemma tryUrls_first (oracle : String → SourceResult) :
    ∀ (l : List String) (i : Nat) (u : String) (rs : List Relay),
    (l.take i).all (fun v => !(oracle v).isOkB) = true → l[i]? = some u →
    oracle u = .resp true (some rs) → tryUrls oracle l = (l.take (i + 1), .ok rs) := by
  intro l
  induction l with
  | nil => intro i u rs _ hget; simp at hget
  | cons a t ih =>
    intro i u rs hall hget hok
    cases i with
    | zero =>
      simp only [List.getElem?_cons_zero, Option.some_inj] at hget
      subst hget
      rw [tryUrls_cons_ok oracle a t rs hok]
      simp
    | succ i =>
      rw [List.take_succ_cons, List.all_cons] at hall
      have ha : (oracle a).isOkB = false := by
        cases hB : (oracle a).isOkB
        · rfl
        · rw [hB] at hall; simp at hall
      have ht : (t.take i).all (fun v => !(oracle v).isOkB) = true := by
        rw [Bool.and_eq_true] at hall
        exact hall.2
      rw [List.getElem?_cons_succ] at hget
      rw [tryUrls_cons_not_ok oracle a t ha, ih i u rs ht hget hok]
      simp

lemma tryUrls_error_iff (oracle : String → SourceResult) :
    ∀ l : List String, ((tryUrls oracle l).2 = .error () ↔ ∀ u ∈ l, (oracle u).isOkB = false) := by
  intro l
  induction l with
  | nil => simp [tryUrls]
  | cons a t ih =>
    cases hB : (oracle a).isOkB with
    | true =>
      obtain ⟨rs, hrs⟩ := (isOkB_iff (oracle a)).mp hB
      rw [tryUrls_cons_ok oracle a t rs hrs]
      constructor
      · intro hcontr; simp at hcontr
      · intro hall
        rw [hall a (List.mem_cons_self a t)] at hB
        simp at hB
    | false =>
      rw [tryUrls_cons_not_ok oracle a t hB]
      simp only [List.forall_mem_cons, ih, hB]
      simp

/-- Claim C3: `grab_relays` builds the ordered probe list with the fixed
primary URL first, then every caller-supplied URL in order, then the two
hardcoded mirrors last; and when every URL before position `i` fails
(transport error, non-2xx, or decode failure) while the URL at position
`i` fully succeeds with candidate list `rs`, the fetch returns `rs` and
the attempted sources are exactly the first `i + 1` URLs — no later
source is attempted. -/
theorem C3_fetch_order (pref : List String) (oracle : String → SourceResult) (i : Nat)
    (u : String) (rs : List Relay) :
    buildUrls pref = baseUrl :: pref ++ [mirror1, mirror2]
    ∧ (((buildUrls pref).take i).all (fun v => !(oracle v).isOkB) = true →
       (buildUrls pref)[i]? = some u →
       oracle u = .resp true (some rs) →
       grab_relays pref oracle = ((buildUrls pref).take (i + 1), .ok rs)) :=
  ⟨rfl, fun h1 h2 h3 => tryUrls_first oracle (buildUrls pref) i u rs h1 h2 h3⟩

/-- Claim C3 witness: the spec's fallback scenario — primary and two
caller-supplied URLs fail, the first hardcoded mirror succeeds with the
single relay `AAA`; the fetch returns that relay and attempts exactly the
first four sources. -/
theorem C3_fetch_order_witness :
    grab_relays ["u1", "u2"] demoOracle
      = ((buildUrls ["u1", "u2"]).take (3 + 1), .ok [demoRelayAAA]) :=
  (C3_fetch_order ["u1", "u2"] demoOracle 3 mirror1 [demoRelayAAA]).2
    (by decide) (by decide) (by decide)

/-- Claim C4: `grab_relays` returns the fatal error if and only if every
source in the ordered probe list failed; whenever some source in the list
fully succeeds the result is not the fatal error; and a single source
fails exactly when its transport errored, its status was non-2xx, or its
body failed to decode. -/
theorem C4_fatal_iff_all_fail (pref : List String) (oracle : String → SourceResult) :
    ((grab_relays pref oracle).2 = .error () ↔ ∀ u ∈ buildUrls pref, (oracle u).isOkB = false)
    ∧ ((∃ u ∈ buildUrls pref, (oracle u).isOkB = true) → ¬(grab_relays pref oracle).2 = .error ())
    ∧ (∀ r : SourceResult, r.isOkB = false ↔ (r = .err ∨ (∃ d, r = .resp false d) ∨ r = .resp true none)) := by
  refine ⟨tryUrls_error_iff oracle (buildUrls pref), ?_, ?_⟩
  · intro hex hcontr
    obtain ⟨u, hu, hok⟩ := hex
    rw [(tryUrls_error_iff oracle (buildUrls pref)).mp hcontr u hu] at hok
    simp at hok
  · intro r
    cases r with
    | err => simp [SourceResult.isOkB]
    | resp s d => cases s <;> cases d <;> simp [SourceResult.isOkB]

/-- Claim C4 witness: a run where every source fails is fatal; a run
where the first mirror succeeds is not. -/
theorem C4_fatal_iff_all_fail_witness :
    (grab_relays ["u1"] demoFailOracle).2 = .error ()
    ∧ ¬(grab_relays [] demoOracle).2 = .error () :=
  ⟨(C4_fatal_iff_all_fail ["u1"] demoFailOracle).1.mpr (by decide),
   (C4_fatal_iff_all_fail [] demoOracle).2.1 (by decide)⟩

lemma probeLoop_eq_filter (f : Str → Nat → Bool) :
    ∀ l : List (Str × Nat), probeLoop f l = l.filter (fun hp => f hp.1 hp.2) := by
  intro l
  induction l with
  | nil => rfl
  | cons hp rest ih =>
    cases h : f hp.1 hp.2 <;> simp [probeLoop, List.filter_cons, h, ih]

/-- Claim C5: `check_relay` is total (its outcome type has no error case
to return), keeps the candidate unchanged, and its reachable list is
exactly the order-preserving sublist of the candidate's parsed addresses
whose `check_connection` attempt succeeded — every parsed address is
consulted, and a failed address shows up only as absence from the
list. -/
theorem C5_probe_outcome {α : Type} (resolve : Str → Except IoErr (List α))
    (connect : α → ConnOutcome) (r : Relay) :
    check_relay resolve connect r
      = (r, (parse_or_addresses r.or_addresses).filter
          (fun hp => isOkE (check_connection resolve connect hp.1 hp.2)))
    ∧ List.Sublist (check_relay resolve connect r).2 (parse_or_addresses r.or_addresses) := by
  constructor
  · rw [check_relay, probeLoop_eq_filter]
  · show List.Sublist (probeLoop _ _) _
    rw [probeLoop_eq_filter]
    exact List.filter_sublist _

lemma filterMap_if_map (ports : List Nat) (fp : Str) (l : List (Str × Nat)) :
    l.filterMap (fun hp =>
        if hp.2 ∈ ports then some (Relay.mk fp [format_address hp.1 hp.2]) else none)
      = (l.filter (fun hp => decide (hp.2 ∈ ports))).map
          (fun hp => Relay.mk fp [format_address hp.1 hp.2]) := by
  induction l with
  | nil => rfl
  | cons hp rest ih =>
    by_cases h : hp.2 ∈ ports <;> simp [List.filterMap_cons, List.filter_cons, h, ih]

/-- Claim C6: with an empty port set the filter is the identity on the
pool; with a non-empty port set the filtered pool is exactly one narrowed
candidate per (candidate, parsed address) pair whose port is in the set,
each carrying the original fingerprint and exactly that one re-encoded
address — so candidates with no matching address contribute nothing. -/
theorem C6_port_filter (relays : List Relay) (ports : List Nat) :
    filter_by_port relays [] = relays
    ∧ (¬ports = [] →
       filter_by_port relays ports
         = relays.flatMap (fun r =>
             ((parse_or_addresses r.or_addresses).filter
               (fun hp => decide (hp.2 ∈ ports))).map
               (fun hp => Relay.mk r.fingerprint [format_address hp.1 hp.2]))) := by
  constructor
  · rfl
  · intro hne
    cases ports with
    | nil => exact absurd rfl hne
    | cons p ps =>
      rw [filter_by_port]
      rw [if_neg (by simp)]
      congr 1
      funext r
      rw [narrowRelay, filterMap_if_map]

/-- Claim C6 witness: the spec's scenario — candidate `BBB` with one
IPv6 and one IPv4 address on port 9001 and filter `{9001}` narrows to two
single-address candidates, both retained. -/
theorem C6_port_filter_witness :
    filter_by_port [demoRelayBBB] [9001]
      = [Relay.mk ("BBB".data) ["[2001:db8::1]:9001".data],
         Relay.mk ("BBB".data) ["10.0.0.2:9001".data]] :=
  ((C6_port_filter [demoRelayBBB] [9001]).2 (by decide)).trans (by decide)

/-- Claim C9: every relay produced by a non-empty port filter carries
exactly one address string, and that string is the canonical re-encoding
`format_address host port` of one of the source relay's parsed addresses
whose port passed the filter — not the original raw string; bracket
styling is therefore normalized by `format_address`. -/
theorem C9_canonical_narrowing (relays : List Relay) (ports : List Nat) (r₂ : Relay)
    (hne : ¬ports = []) (hmem : r₂ ∈ filter_by_port relays ports) :
    ∃ r ∈ relays, ∃ hp ∈ parse_or_addresses r.or_addresses,
      hp.2 ∈ ports ∧ r₂.fingerprint = r.fingerprint
      ∧ r₂.or_addresses = [format_address hp.1 hp.2] := by
  rw [filter_by_port, if_neg (by simp [List.isEmpty_iff, hne])] at hmem
  rw [List.mem_flatMap] at hmem
  obtain ⟨r, hr, hmem2⟩ := hmem
  rw [narrowRelay, List.mem_filterMap] at hmem2
  obtain ⟨hp, hhp, heq⟩ := hmem2
  by_cases hport : hp.2 ∈ ports
  · rw [if_pos hport, Option.some_inj] at heq
    subst heq
    exact ⟨r, hr, hp, hhp, hport, rfl, rfl⟩
  · rw [if_neg hport] at heq
    exact absurd heq (by simp)

/-- Claim C9 witness: the narrowed candidate kept from `BBB`'s raw IPv6
address carries the canonical bracketed re-encoding of its parsed
address. -/
theorem C9_canonical_narrowing_witness :
    ∃ r ∈ [demoRelayBBB], ∃ hp ∈ parse_or_addresses r.or_addresses,
      hp.2 ∈ [9001] ∧ ("BBB".data : Str) = r.fingerprint
      ∧ ["[2001:db8::1]:9001".data] = [format_address hp.1 hp.2] :=
  C9_canonical_narrowing [demoRelayBBB] [9001]
    (Relay.mk ("BBB".data) ["[2001:db8::1]:9001".data]) (by decide) (by decide)

/-- Claim C7: the goal comparison happens only between batches — a batch
list headed by `chunk` returns at once when the accumulated count has
reached the goal (no further batch is started), and otherwise processes
the whole of `chunk` before the goal is consulted again (so the final
count may exceed the goal); exhausting all batches returns the
accumulator normally, a terminal value rather than an error. -/
theorem C7_goal_between_batches {α : Type} (resolve : Str → Except IoErr (List α))
    (connect : α → ConnOutcome) (goal : Nat) (chunk : List Relay)
    (rest : List (List Relay)) (acc : List (Relay × List (Str × Nat))) :
    (goal ≤ acc.length → scanLoop resolve connect goal (chunk :: rest) acc = acc)
    ∧ (acc.length < goal →
       scanLoop resolve connect goal (chunk :: rest) acc
         = scanLoop resolve connect goal rest (acc ++ processBatch resolve connect chunk))
    ∧ scanLoop resolve connect goal [] acc = acc := by
  refine ⟨?_, ?_, rfl⟩
  · intro h
    rw [scanLoop, if_pos h]
  · intro h
    rw [scanLoop, if_neg (Nat.not_le.mpr h)]

/-- Claim C7 witness: with the goal already met no batch is started; with
the goal unmet the whole head batch is processed before the next
comparison. -/
theorem C7_goal_between_batches_witness :
    scanLoop demoResolveTwo demoConnect 0 [[demoRelayAAA]] [] = []
    ∧ scanLoop demoResolveTwo demoConnect 1 [[demoRelayAAA]] []
        = scanLoop demoResolveTwo demoConnect 1 []
            ([] ++ processBatch demoResolveTwo demoConnect [demoRelayAAA]) :=
  ⟨(C7_goal_between_batches demoResolveTwo demoConnect 0 [demoRelayAAA] [] []).1 (by decide),
   (C7_goal_between_batches demoResolveTwo demoConnect 1 [demoRelayAAA] [] []).2.1 (by decide)⟩

lemma connLoop_ok_iff {α : Type} (connect : α → ConnOutcome) :
    ∀ (l : List α) (lastE : Option IoErr),
      (connLoop connect l lastE = .ok () ↔ ∃ a ∈ l, connect a = .success) := by
  intro l
  induction l with
  | nil => intro lastE; simp [connLoop]
  | cons a t ih =>
    intro lastE
    cases h : connect a with
    | success =>
      rw [connLoop, h]
      constructor
      · intro _
        exact ⟨a, List.mem_cons_self a t, h⟩
      · intro _
        rfl
    | failed e =>
      rw [connLoop, h, ih (some e)]
      constructor
      · rintro ⟨b, hb, hbs⟩
        exact ⟨b, List.mem_cons_of_mem a hb, hbs⟩
      · rintro ⟨b, hb, hbs⟩
        rcases List.mem_cons.mp hb with rfl | hb2
        · rw [h] at hbs
          exact absurd hbs (by simp)
        · exact ⟨b, hb2, hbs⟩
    | elapsed =>
      rw [connLoop, h, ih (some .timedOut)]
      constructor
      · rintro ⟨b, hb, hbs⟩
        exact ⟨b, List.mem_cons_of_mem a hb, hbs⟩
      · rintro ⟨b, hb, hbs⟩
        rcases List.mem_cons.mp hb with rfl | hb2
        · rw [h] at hbs
          exact absurd hbs (by simp)
        · exact ⟨b, hb2, hbs⟩

lemma connLoop_all_fail {α : Type} (connect : α → ConnOutcome) :
    ∀ (l : List α) (b : α), (∀ a ∈ l, ¬connect a = .success) → l.getLast? = some b →
      ∀ lastE : Option IoErr, connLoop connect l lastE = .error (attemptErr connect b) := by
  intro l
  induction l with
  | nil =>
    intro b _ hlast
    simp at hlast
  | cons a t ih =>
    intro b hfail hlast lastE
    cases t with
    | nil =>
      have hb : a = b := by simpa using hlast
      subst hb
      cases h : connect a with
      | success => exact absurd h (hfail a (List.mem_cons_self a []))
      | failed e =>
        rw [connLoop, h]
        simp [connLoop, attemptErr, h]
      | elapsed =>
        rw [connLoop, h]
        simp [connLoop, attemptErr, h]
    | cons c t2 =>
      have hlast2 : (c :: t2).getLast? = some b := by
        rw [List.getLast?_cons_cons] at hlast
        exact hlast
      have hfail2 : ∀ x ∈ c :: t2, ¬connect x = .success :=
        fun x hx => hfail x (List.mem_cons_of_mem a hx)
      cases h : connect a with
      | success => exact absurd h (hfail a (List.mem_cons_self a (c :: t2)))
      | failed e =>
        rw [connLoop, h]
        exact ih b hfail2 hlast2 (some e)
      | elapsed =>
        rw [connLoop, h]
        exact ih b hfail2 hlast2 (some .timedOut)

/-- Claim C10: `check_connection` resolves the formatted address and then
walks the resolved socket addresses: a resolution failure propagates its
error; an empty resolution yields the `No addresses found` error; it
succeeds exactly when some resolved address connects (in particular as
soon as one address of the list connects, whatever follows it); and when
every resolved address fails (refusal or per-attempt timeout) it reports
the failure of the last address attempted. -/
theorem C10_check_connection {α : Type} (resolve : Str → Except IoErr (List α))
    (connect : α → ConnOutcome) (host : Str) (port : Nat) :
    (∀ e, resolve (format_address host port) = .error e →
       check_connection resolve connect host port = .error e)
    ∧ (resolve (format_address host port) = .ok [] →
       check_connection resolve connect host port = .error .noAddressesFound)
    ∧ (∀ addrs, resolve (format_address host port) = .ok addrs →
       (check_connection resolve connect host port = .ok ()
         ↔ ∃ a ∈ addrs, connect a = .success))
    ∧ (∀ addrs b, resolve (format_address host port) = .ok addrs →
       (∀ a ∈ addrs, ¬connect a = .success) → addrs.getLast? = some b →
       check_connection resolve connect host port = .error (attemptErr connect b))
    ∧ (∀ (pre : List α) (a : α) (post : List α),
       resolve (format_address host port) = .ok (pre ++ a :: post) →
       connect a = .success → check_connection resolve connect host port = .ok ()) := by
  refine ⟨?_, ?_, ?_, ?_, ?_⟩
  · intro e he
    rw [check_connection, he]
  · intro h0
    rw [check_connection, h0]
    rfl
  · intro addrs ha
    rw [check_connection, ha]
    exact connLoop_ok_iff connect addrs none
  · intro addrs b ha hfail hlast
    rw [check_connection, ha]
    exact connLoop_all_fail connect addrs b hfail hlast none
  · intro pre a post ha hs
    rw [check_connection, ha]
    exact (connLoop_ok_iff connect (pre ++ a :: post) none).mpr ⟨a, by simp, hs⟩

/-- Claim C10 witness: the four outcomes at concrete oracles — propagated
resolution error, empty resolution, success on the second resolved
address, and the last failure reported when both addresses fail. -/
theorem C10_check_connection_witness :
    check_connection demoResolveErr demoConnect ("h".data) 1 = .error (.other 3)
    ∧ check_connection demoResolveNil demoConnect ("h".data) 1 = .error .noAddressesFound
    ∧ check_connection demoResolveTwo demoConnect ("h".data) 1 = .ok ()
    ∧ check_connection demoResolveTwo demoConnectFail ("h".data) 1
        = .error (attemptErr demoConnectFail 1) :=
  ⟨(C10_check_connection demoResolveErr demoConnect ("h".data) 1).1 (.other 3) rfl,
   (C10_check_connection demoResolveNil demoConnect ("h".data) 1).2.1 rfl,
   ((C10_check_connection demoResolveTwo demoConnect ("h".data) 1).2.2.1 [0, 1] rfl).mpr
     (by decide),
   (C10_check_connection demoResolveTwo demoConnectFail ("h".data) 1).2.2.2.1 [0, 1] 1 rfl
     (by decide) (by decide)⟩
